import Mathlib

/-!
Go-Hooping: a verification development of `src/main.cpp`.

The program is a terminal game: every player picks a money-ball rack, enters a
shooting capability and shoots five racks of five balls, with a starry ball
after racks 2 and 3.

The embedding:

* `cin` is a list of the integers still to be read (`World.input`); reading from
  an exhausted list is `none` (the C++ program does not terminate there).
* `rand()` is an infinite sequence of naturals (`World.draws`) together with the
  number of draws consumed so far (`World.pos`).
* `cout` is the list of lines printed so far (`World.out`), one `Event` per
  message of the source; `Event.render` gives the text.
* `int` is `Int`: every value the program computes is a loop counter or a score
  of at most 34, so no 32-bit wrap-around can occur.
* Reference parameters (`int &rackScore`, `int &totalScore`, `char results[]`)
  become returned values; a by-value parameter is a local copy that is dropped.
-/

namespace GoHooping

/-! ## Data model -/

/-- One message written to `cout`. -/
inductive Event where
  | promptMoneyBallRack
  | invalidInput
  | promptShootingCapability
  | rackLine (results : List Char) (rackScore : Int)
  | starryLine (success : Bool)
  | totalLine (playerNumber : Int) (totalScore : Int)
  | highestLine (highestScore : Int)
  | promptPlayAgain
  | invalidChoice
  | promptPlayers
  | tooFewPlayers
  | turnLine (playerNumber : Int)
  | thanks
  deriving DecidableEq, Repr

/-- The text of a message, as the source prints it. -/
def Event.render : Event → String
  | .promptMoneyBallRack => "Where do you want to put your money-ball rack? Enter 1-5: "
  | .invalidInput => "Invalid input, try again.\n"
  | .promptShootingCapability => "Enter your shooting capability (1-99): "
  | .rackLine results rackScore =>
      "Rack: " ++ String.join (results.map fun c => String.mk [c, ' ']) ++ "| "
        ++ toString rackScore ++ " pts\n"
  | .starryLine true => "Starry: S | 3 pts\n"
  | .starryLine false => "Starry: _ | 0 pts\n"
  | .totalLine playerNumber totalScore =>
      "Total score for Player " ++ toString playerNumber ++ ": " ++ toString totalScore ++ " pts\n"
  | .highestLine highestScore => "Highest score is: " ++ toString highestScore ++ "\n"
  | .promptPlayAgain => "Do you want to play again? (1-yes, 0-no): "
  | .invalidChoice => "Sorry, that’s not a valid input.\n"
  | .promptPlayers => "Enter the number of players: "
  | .tooFewPlayers => "Number of players must be at least 2.\n"
  | .turnLine playerNumber => "Player " ++ toString playerNumber ++ ", it's your turn!\n"
  | .thanks => "Thanks for playing!\n"

/-- The environment of the program: standard input, the random source and
standard output. -/
structure World where
  input : List Int
  draws : Nat → Nat
  pos : Nat
  out : List Event

/-- The statement `cout << ...` for one message. -/
def World.print (w : World) (e : Event) : World :=
  { w with out := w.out ++ [e] }

/-- The call `rand()`: the next draw of the sequence. -/
def rand (w : World) : Nat × World :=
  (w.draws w.pos, { w with pos := w.pos + 1 })

/-! ## Input functions -/

/-- The `do ... while` loop of `chooseShootingCapability`, over the remaining
input. -/
def chooseShootingCapabilityLoop : List Int → List Event → Option (Int × List Int × List Event)
  | [], _ => none
  | shootingCapability :: rest, out =>
      let out := out ++ [Event.promptShootingCapability]
      if shootingCapability < 1 ∨ shootingCapability > 99 then
        chooseShootingCapabilityLoop rest (out ++ [Event.invalidInput])
      else
        some (shootingCapability, rest, out)

/-- The function `chooseShootingCapability` of the source. -/
def chooseShootingCapability (w : World) : Option (Int × World) :=
  match chooseShootingCapabilityLoop w.input w.out with
  | none => none
  | some (shootingCapability, rest, out) =>
      some (shootingCapability, { w with input := rest, out := out })

/-- The function `shotSuccessful` of the source: `rand() % 100 < shootingCapability`. -/
def shotSuccessful (shootingCapability : Int) (w : World) : Bool × World :=
  let r := rand w
  (decide (((r.1 % 100 : Nat) : Int) < shootingCapability), r.2)

/-- The body of the `for` loop of `simulateRack` at index `i`, on the state
`(results, rackScore, world)`. -/
def simulateRackBody (isMoneyBallRack : Bool) (shootingCapability : Int)
    (st : List Char × Int × World) (i : Nat) : List Char × Int × World :=
  let s := shotSuccessful shootingCapability st.2.2
  let success := s.1
  if isMoneyBallRack then
    (st.1.set i (if success then 'M' else '_'), st.2.1 + (if success then 2 else 0), s.2)
  else if i = 4 then
    (st.1.set i (if success then 'M' else '_'), st.2.1 + (if success then 2 else 0), s.2)
  else
    (st.1.set i (if success then 'X' else '_'), st.2.1 + (if success then 1 else 0), s.2)

/-- The function `simulateRack` of the source. It returns the new contents of
`results` and of `rackScore`; the incoming `rackScore` is overwritten with 0. -/
def simulateRack (_position : Int) (isMoneyBallRack : Bool) (results : List Char)
    (_rackScore : Int) (shootingCapability : Int) (w : World) : List Char × Int × World :=
  (List.range 5).foldl (simulateRackBody isMoneyBallRack shootingCapability) (results, 0, w)

/-- The function `simulateStarryBall` of the source. It returns the new value of
the reference `rackScore`. -/
def simulateStarryBall (isStarryRack : Bool) (rackScore : Int) (shootingCapability : Int)
    (w : World) : Int × World :=
  if isStarryRack then
    let s := shotSuccessful shootingCapability w
    if s.1 then
      (rackScore + 3, s.2.print (Event.starryLine true))
    else
      (rackScore, s.2.print (Event.starryLine false))
  else
    (rackScore, w)

/-- The function `displayRackResults` of the source. `rackScore` is passed by
value: the copy updated by `simulateStarryBall` is local and is dropped on
return, so only the world is returned. -/
def displayRackResults (results : List Char) (rackScore : Int) (isStarryRack : Bool)
    (shootingCapability : Int) (w : World) : World :=
  let w := w.print (Event.rackLine (results.take 5) rackScore)
  (simulateStarryBall isStarryRack rackScore shootingCapability w).2

/-! ## Rounds and matches -/

/-- The flag `isStarryRack` computed by `playRound` for rack position `i`. -/
def isStarryRack (i : Int) : Bool :=
  decide (i = 2) || decide (i = 3)

/-- The body of the `for` loop of `playRound` at rack position `i`, on the state
`(totalScore, results, rackScore, world)`. -/
def playRoundBody (moneyBallRack : Int) (shootingCapability : Int)
    (st : Int × List Char × Int × World) (i : Nat) : Int × List Char × Int × World :=
  let isMoneyBallRack : Bool := decide ((i : Int) = moneyBallRack)
  let r := simulateRack i isMoneyBallRack st.2.1 st.2.2.1 shootingCapability st.2.2.2
  let w := displayRackResults r.1 r.2.1 (isStarryRack i) shootingCapability r.2.2
  (st.1 + r.2.1, r.1, r.2.1, w)

/-- The function `playRound` of the source. It returns the final value of the
reference `totalScore`. The local array `results` starts with five unspecified
characters, all overwritten by the first `simulateRack`. -/
def playRound (moneyBallRack : Int) (playerNumber : Int) (w : World) : Option (Int × World) :=
  match chooseShootingCapability w with
  | none => none
  | some (shootingCapability, w) =>
      let st := (List.range' 1 5).foldl (playRoundBody moneyBallRack shootingCapability)
        (0, List.replicate 5 ' ', 0, w)
      some (st.1, st.2.2.2.print (Event.totalLine playerNumber st.1))

/-- The `for` loop of `declareWinner`: `k` iterations are left, `i` is the loop
index. An index outside the array is `none`. -/
def declareWinnerLoop (scores : List Int) : Nat → Nat → Int → Option Int
  | 0, _, highestScore => some highestScore
  | k + 1, i, highestScore =>
      match scores[i]? with
      | none => none
      | some s =>
          declareWinnerLoop scores k (i + 1) (if s > highestScore then s else highestScore)

/-- The function `declareWinner` of the source; the loop runs for `i = 1, ..., N - 1`. -/
def declareWinner (scores : List Int) (N : Int) (w : World) : Option World :=
  match scores[0]? with
  | none => none
  | some s0 =>
      match declareWinnerLoop scores (N - 1).toNat 1 s0 with
      | none => none
      | some highestScore => some (w.print (Event.highestLine highestScore))

/-- The outcomes of the starry shots of an output, in order. -/
def starryShots : List Event → List Bool
  | [] => []
  | Event.starryLine success :: es => success :: starryShots es
  | _ :: es => starryShots es

/-- The scores of the rack lines of an output, in order. -/
def rackScores : List Event → List Int
  | [] => []
  | Event.rackLine _ rackScore :: es => rackScore :: rackScores es
  | _ :: es => rackScores es

/-- The point value of a recorded shot result. -/
def pointValue (c : Char) : Int :=
  if c = 'M' then 2 else if c = 'X' then 1 else 0

/-- A random source that returns `r` at every draw, with nothing to read and
nothing printed. -/
def constWorld (r : Nat) : World :=
  { input := [], draws := fun _ => r, pos := 0, out := [] }

/-- A world with the given input whose random source returns `r` at every draw. -/
def inputWorld (input : List Int) (r : Nat) : World :=
  { input := input, draws := fun _ => r, pos := 0, out := [] }

/-! ## Specification vocabulary -/

/-- The outcome of the shot that uses the `k`-th next draw of the world. -/
def hit (shootingCapability : Int) (w : World) (k : Nat) : Bool :=
  (shotSuccessful shootingCapability { w with pos := w.pos + k }).1

/-- The scoring table of a rack as the specification words it: the recorded
symbol and the points of the shot at index `i`. -/
def tableEntry (isMoneyBallRack : Bool) (i : Nat) (made : Bool) : Char × Int :=
  if made then
    if isMoneyBallRack then ('M', 2)
    else if i ≤ 3 then ('X', 1)
    else ('M', 2)
  else ('_', 0)

/-- The rack at position `i` of a round with the given money-ball rack, shot
from the `k`-th next draw of the world: what `simulateRack` returns there. -/
def rackAt (moneyBallRack shootingCapability : Int) (w : World) (i k : Nat) :
    List Char × Int × World :=
  simulateRack i (decide ((i : Int) = moneyBallRack)) (List.replicate 5 ' ') 0 shootingCapability
    { w with pos := w.pos + k }

/-- The sum of the five scores `simulateRack` writes in a round that starts at
the next draw of the world: racks 1 to 5 are shot from draws 0, 5, 11, 17 and 22
(draws 10 and 16 are the starry shots). -/
def rackScoreSum (moneyBallRack shootingCapability : Int) (w : World) : Int :=
  0 + (rackAt moneyBallRack shootingCapability w 1 0).2.1
    + (rackAt moneyBallRack shootingCapability w 2 5).2.1
    + (rackAt moneyBallRack shootingCapability w 3 11).2.1
    + (rackAt moneyBallRack shootingCapability w 4 17).2.1
    + (rackAt moneyBallRack shootingCapability w 5 22).2.1

/-- The line printed for the rack at position `i` shot from draw `k`. -/
def rackLineAt (moneyBallRack shootingCapability : Int) (w : World) (i k : Nat) : Event :=
  Event.rackLine (rackAt moneyBallRack shootingCapability w i k).1
    (rackAt moneyBallRack shootingCapability w i k).2.1

/-- The lines a round prints after the shooting capability has been read. -/
def roundLines (moneyBallRack playerNumber shootingCapability : Int) (w : World) : List Event :=
  [rackLineAt moneyBallRack shootingCapability w 1 0,
   rackLineAt moneyBallRack shootingCapability w 2 5,
   Event.starryLine (hit shootingCapability w 10),
   rackLineAt moneyBallRack shootingCapability w 3 11,
   Event.starryLine (hit shootingCapability w 16),
   rackLineAt moneyBallRack shootingCapability w 4 17,
   rackLineAt moneyBallRack shootingCapability w 5 22,
   Event.totalLine playerNumber (rackScoreSum moneyBallRack shootingCapability w)]

theorem shotSuccessful_fst (cap : Int) (w : World) :
    (shotSuccessful cap w).1 = decide (((w.draws w.pos % 100 : Nat) : Int) < cap) := rfl

theorem shotSuccessful_snd (cap : Int) (w : World) :
    (shotSuccessful cap w).2 = { w with pos := w.pos + 1 } := rfl

theorem hit_eq (cap : Int) (w : World) (k : Nat) :
    hit cap w k = decide (((w.draws (w.pos + k) % 100 : Nat) : Int) < cap) := rfl

theorem hit_zero (cap : Int) (w : World) : (shotSuccessful cap w).1 = hit cap w 0 := rfl

/-- One pass through the loop body of `simulateRack`, in terms of the scoring
table. -/
theorem simulateRackBody_eq (m : Bool) (cap : Int) (results : List Char) (score : Int)
    (w : World) (k i : Nat) (hi : i < 5) :
    simulateRackBody m cap (results, score, { w with pos := w.pos + k }) i =
      (results.set i (tableEntry m i (hit cap w k)).1, score + (tableEntry m i (hit cap w k)).2,
        { w with pos := w.pos + (k + 1) }) := by
  have hs : (shotSuccessful cap { w with pos := w.pos + k }).1 = hit cap w k := rfl
  have hw : (shotSuccessful cap { w with pos := w.pos + k }).2
      = { w with pos := w.pos + (k + 1) } := rfl
  unfold simulateRackBody
  simp only [hs, hw]
  by_cases h4 : i = 4
  · have h3 : ¬ i ≤ 3 := by omega
    cases m <;> cases hit cap w k <;> simp [tableEntry, h4]
  · have h3 : i ≤ 3 := by omega
    cases m <;> cases hit cap w k <;> simp [tableEntry, h4, h3]

/-- The explicit result of `simulateRack`: the five entries of `results` are
overwritten, the score is rebuilt from 0 and five draws are consumed. -/
theorem simulateRack_eq (position : Int) (m : Bool) (results : List Char) (rackScore cap : Int)
    (w : World) :
    simulateRack position m results rackScore cap w =
      (((((results.set 0 (tableEntry m 0 (hit cap w 0)).1).set 1
          (tableEntry m 1 (hit cap w 1)).1).set 2 (tableEntry m 2 (hit cap w 2)).1).set 3
          (tableEntry m 3 (hit cap w 3)).1).set 4 (tableEntry m 4 (hit cap w 4)).1,
       0 + (tableEntry m 0 (hit cap w 0)).2 + (tableEntry m 1 (hit cap w 1)).2
        + (tableEntry m 2 (hit cap w 2)).2 + (tableEntry m 3 (hit cap w 3)).2
        + (tableEntry m 4 (hit cap w 4)).2,
       { w with pos := w.pos + 5 }) := by
  have h0 : simulateRack position m results rackScore cap w
      = [0, 1, 2, 3, 4].foldl (simulateRackBody m cap) (results, 0, { w with pos := w.pos + 0 }) :=
    rfl
  rw [h0]
  simp only [List.foldl]
  rw [simulateRackBody_eq m cap _ _ w 0 0 (by omega), simulateRackBody_eq m cap _ _ w 1 1 (by omega),
    simulateRackBody_eq m cap _ _ w 2 2 (by omega), simulateRackBody_eq m cap _ _ w 3 3 (by omega),
    simulateRackBody_eq m cap _ _ w 4 4 (by omega)]

/-- A list of length five is a literal of five elements. -/
theorem length_five {α : Type} (l : List α) (h : l.length = 5) :
    ∃ a b c d e, l = [a, b, c, d, e] := by
  match l, h with
  | [a, b, c, d, e], _ => exact ⟨a, b, c, d, e, rfl⟩

/-- The outcome of a draw does not depend on what was printed, and offsets add. -/
theorem hit_shift (cap : Int) (w : World) (k j : Nat) (o : List Event) :
    hit cap { w with pos := w.pos + k, out := o } j = hit cap w (k + j) := by
  simp [hit_eq, Nat.add_assoc]

/-- The explicit result of `simulateStarryBall`. -/
theorem simulateStarryBall_eq (b : Bool) (rackScore cap : Int) (w : World) :
    simulateStarryBall b rackScore cap w =
      if b then
        (rackScore + (if hit cap w 0 then 3 else 0),
          { w with pos := w.pos + 1, out := w.out ++ [Event.starryLine (hit cap w 0)] })
      else (rackScore, w) := by
  have hs : (shotSuccessful cap w).1 = hit cap w 0 := rfl
  unfold simulateStarryBall
  cases b
  · simp
  · simp only [hs, if_true]
    cases hit cap w 0 <;> simp [World.print, shotSuccessful_snd]

/-- The explicit result of `displayRackResults`. -/
theorem displayRackResults_eq (results : List Char) (rackScore : Int) (b : Bool) (cap : Int)
    (w : World) :
    displayRackResults results rackScore b cap w =
      { w with
        pos := w.pos + (if b then 1 else 0)
        out := w.out ++ Event.rackLine (results.take 5) rackScore ::
          (if b then [Event.starryLine (hit cap w 0)] else []) } := by
  have h := hit_shift cap w 0 0 (w.out ++ [Event.rackLine (results.take 5) rackScore])
  simp only [Nat.add_zero] at h
  show (simulateStarryBall b rackScore cap _).2 = _
  rw [simulateStarryBall_eq]
  cases b
  · simp [World.print]
  · simp [World.print, h]

/-- One pass through the loop body of `playRound`: the rack is shot from the
current draw, its line is printed, a starry shot follows at racks 2 and 3, and
the value added to the total is the score `simulateRack` wrote. -/
theorem playRoundBody_eq (m cap t rs : Int) (res : List Char) (hres : res.length = 5)
    (w : World) (k : Nat) (o : List Event) (i : Nat) :
    playRoundBody m cap (t, res, rs, { w with pos := w.pos + k, out := o }) i =
      (t + (rackAt m cap w i k).2.1, (rackAt m cap w i k).1, (rackAt m cap w i k).2.1,
        { w with
          pos := w.pos + (k + 5 + (if isStarryRack i then 1 else 0))
          out := o ++ Event.rackLine (rackAt m cap w i k).1 (rackAt m cap w i k).2.1 ::
            (if isStarryRack i then [Event.starryLine (hit cap w (k + 5))] else []) }) := by
  obtain ⟨a, b, c, d, e, rfl⟩ := length_five res hres
  have h5 := hit_shift cap w (k + 5) 0 o
  simp only [Nat.add_zero] at h5
  unfold playRoundBody rackAt
  simp only [simulateRack_eq, displayRackResults_eq]
  simp [hit_shift, List.replicate, Nat.add_assoc, h5]

theorem rackAt_length (m cap : Int) (w : World) (i k : Nat) :
    (rackAt m cap w i k).1.length = 5 := by
  simp [rackAt, simulateRack_eq]

/-- The explicit result of `playRound` once the shooting capability is read:
27 draws are consumed and the total is the sum of the five rack scores. -/
theorem playRound_eq (m p cap : Int) (w w1 : World)
    (h : chooseShootingCapability w = some (cap, w1)) :
    playRound m p w =
      some (rackScoreSum m cap w1,
        { w1 with pos := w1.pos + 27, out := w1.out ++ roundLines m p cap w1 }) := by
  have h0 : (List.range' 1 5).foldl (playRoundBody m cap) (0, List.replicate 5 ' ', 0, w1)
      = [1, 2, 3, 4, 5].foldl (playRoundBody m cap)
          (0, List.replicate 5 ' ', 0, { w1 with pos := w1.pos + 0, out := w1.out }) := rfl
  unfold playRound
  rw [h]
  dsimp only
  rw [h0]
  simp only [List.foldl]
  rw [playRoundBody_eq m cap _ _ _ (by simp) w1, playRoundBody_eq m cap _ _ _ (rackAt_length ..) w1,
    playRoundBody_eq m cap _ _ _ (rackAt_length ..) w1,
    playRoundBody_eq m cap _ _ _ (rackAt_length ..) w1,
    playRoundBody_eq m cap _ _ _ (rackAt_length ..) w1]
  simp [isStarryRack, World.print, rackScoreSum, roundLines, rackLineAt]

/-- The result of `playRound` in one equation: it completes exactly when the
shooting capability can be read, consumes 27 draws and returns the sum of the
five rack scores. -/
theorem playRound_map (m p : Int) (w : World) :
    playRound m p w = (chooseShootingCapability w).map (fun c =>
      (rackScoreSum m c.1 c.2,
        { c.2 with pos := c.2.pos + 27, out := c.2.out ++ roundLines m p c.1 c.2 })) := by
  cases h : chooseShootingCapability w with
  | none => simp [playRound, h]
  | some c =>
      obtain ⟨cap, w1⟩ := c
      rw [playRound_eq m p cap w w1 h]
      rfl

/-! ## Input loops -/

/-- The loop of `declareWinner` keeps the maximum of the scores seen so far and
ends with the maximum of the whole array. -/
theorem declareWinnerLoop_max (scores : List Int) (k i : Nat) (highestScore : Int)
    (hik : i + k = scores.length)
    (hub : ∀ x ∈ scores.take i, x ≤ highestScore) (hmem : highestScore ∈ scores.take i) :
    ∃ h, declareWinnerLoop scores k i highestScore = some h ∧
      (∀ x ∈ scores, x ≤ h) ∧ h ∈ scores := by
  induction k generalizing i highestScore with
  | zero =>
      have hi : scores.take i = scores := List.take_of_length_le (by omega)
      rw [hi] at hub hmem
      exact ⟨highestScore, rfl, hub, hmem⟩
  | succ k ih =>
      have hlt : i < scores.length := by omega
      have hget : scores[i]? = some scores[i] := List.getElem?_eq_getElem hlt
      have htake : scores.take (i + 1) = scores.take i ++ [scores[i]] := by
        rw [List.take_succ, hget]; rfl
      simp only [declareWinnerLoop, hget]
      apply ih (i + 1) _ (by omega)
      · intro x hx
        rw [htake, List.mem_append, List.mem_singleton] at hx
        rcases hx with hx | rfl
        · have := hub x hx
          split_ifs <;> omega
        · split_ifs <;> omega
      · rw [htake, List.mem_append, List.mem_singleton]
        split_ifs
        · exact Or.inr rfl
        · exact Or.inl hmem

/-! ## Rounds of a match -/

/-- `declareWinner` completes on an array of `N ≥ 1` scores and reports its
maximum. -/
theorem declareWinner_max (scores : List Int) (N : Int) (w : World)
    (hN : 1 ≤ N) (hlen : (scores.length : Int) = N) :
    ∃ h, declareWinner scores N w = some (w.print (Event.highestLine h)) ∧
      (∀ x ∈ scores, x ≤ h) ∧ h ∈ scores ∧
      (∀ s ∈ scores, (∀ x ∈ scores, x ≤ s) → s = h) := by
  have hpos : 0 < scores.length := by omega
  have hget : scores[0]? = some scores[0] := List.getElem?_eq_getElem hpos
  have htake : scores.take 1 = [scores[0]] := by
    rw [List.take_succ, hget]; rfl
  obtain ⟨h, hl, hub, hmem⟩ := declareWinnerLoop_max scores (N - 1).toNat 1 scores[0]
    (by omega) (by simp [htake]) (by simp [htake])
  refine ⟨h, ?_, hub, hmem, ?_⟩
  · simp only [declareWinner, hget, hl]
  · intro s hs hmax
    have h1 := hub s hs
    have h2 := hmax h hmem
    omega

/-! ## Output only grows -/

/-- Among the numbers below `n`, exactly `min n p` are below `p`. -/
theorem filter_lt_length (p n : Nat) :
    ((List.range n).filter (fun r => decide (r < p))).length = min n p := by
  induction n with
  | zero => simp
  | succ n ih =>
      rw [List.range_succ, List.filter_append, List.length_append, ih]
      by_cases h : n < p
      · simp [h]; omega
      · simp [h]; omega

/-- The score of a rack is the sum of the point values of its recorded symbols. -/
theorem pointValue_tableEntry (m : Bool) (i : Nat) (made : Bool) :
    pointValue (tableEntry m i made).1 = (tableEntry m i made).2 := by
  cases m <;> cases made <;> by_cases h : i ≤ 3 <;> simp [tableEntry, pointValue, h]

theorem tableEntry_bounds (m : Bool) (i : Nat) (made : Bool) :
    0 ≤ (tableEntry m i made).2 ∧ (tableEntry m i made).2 ≤ 2 ∧
      (i ≤ 3 → m = false → (tableEntry m i made).2 ≤ 1) ∧
      (m = true → 2 ∣ (tableEntry m i made).2) := by
  cases m <;> cases made <;> by_cases h : i ≤ 3 <;> simp [tableEntry, h]

/-- A rack that is not the money-ball rack scores between 0 and 6. -/
theorem simulateRack_plain_bounds (position : Int) (results : List Char) (rackScore cap : Int)
    (w : World) :
    0 ≤ (simulateRack position false results rackScore cap w).2.1 ∧
      (simulateRack position false results rackScore cap w).2.1 ≤ 6 := by
  rw [simulateRack_eq]
  have h0 := tableEntry_bounds false 0 (hit cap w 0)
  have h1 := tableEntry_bounds false 1 (hit cap w 1)
  have h2 := tableEntry_bounds false 2 (hit cap w 2)
  have h3 := tableEntry_bounds false 3 (hit cap w 3)
  have h4 := tableEntry_bounds false 4 (hit cap w 4)
  have e0 := h0.2.2.1 (by omega) rfl
  have e1 := h1.2.2.1 (by omega) rfl
  have e2 := h2.2.2.1 (by omega) rfl
  have e3 := h3.2.2.1 (by omega) rfl
  dsimp only
  omega

/-- The money-ball rack scores an even number between 0 and 10. -/
theorem simulateRack_money_bounds (position : Int) (results : List Char) (rackScore cap : Int)
    (w : World) :
    0 ≤ (simulateRack position true results rackScore cap w).2.1 ∧
      (simulateRack position true results rackScore cap w).2.1 ≤ 10 ∧
      2 ∣ (simulateRack position true results rackScore cap w).2.1 := by
  rw [simulateRack_eq]
  have h0 := tableEntry_bounds true 0 (hit cap w 0)
  have h1 := tableEntry_bounds true 1 (hit cap w 1)
  have h2 := tableEntry_bounds true 2 (hit cap w 2)
  have h3 := tableEntry_bounds true 3 (hit cap w 3)
  have h4 := tableEntry_bounds true 4 (hit cap w 4)
  have d0 := h0.2.2.2 rfl
  have d1 := h1.2.2.2 rfl
  have d2 := h2.2.2.2 rfl
  have d3 := h3.2.2.2 rfl
  have d4 := h4.2.2.2 rfl
  dsimp only
  omega

/-- The score of the rack at position `i` of a round: at most 10 on the
money-ball rack and at most 6 elsewhere. -/
theorem rackAt_bounds (m cap : Int) (w : World) (i k : Nat) :
    0 ≤ (rackAt m cap w i k).2.1 ∧
      (rackAt m cap w i k).2.1 ≤ (if (i : Int) = m then 10 else 6) := by
  unfold rackAt
  by_cases h : (i : Int) = m
  · have := simulateRack_money_bounds i (List.replicate 5 ' ') 0 cap { w with pos := w.pos + k }
    simp only [h, decide_True, if_true] at this ⊢
    omega
  · have := simulateRack_plain_bounds i (List.replicate 5 ' ') 0 cap { w with pos := w.pos + k }
    simp only [h, decide_False, if_false] at this ⊢
    omega

/-! ## The claims -/

/-- C2: `simulateRack` scores a rack by the table of the specification. On a
five-element array the recorded results are the table's symbols for the five
shots, the score is rebuilt from 0 as the sum of the table's points, it equals
the sum of the point values of the recorded symbols, it does not depend on the
value `rackScore` held before, and five draws are consumed. -/
theorem simulateRack_scoring_table (position : Int) (m : Bool) (results : List Char)
    (hlen : results.length = 5) (rackScore cap : Int) (w : World) :
    (simulateRack position m results rackScore cap w).1
        = (List.range 5).map (fun i => (tableEntry m i (hit cap w i)).1) ∧
      (simulateRack position m results rackScore cap w).2.1
        = 0 + ((List.range 5).map (fun i => (tableEntry m i (hit cap w i)).2)).sum ∧
      (simulateRack position m results rackScore cap w).2.1
        = ((simulateRack position m results rackScore cap w).1.map pointValue).sum ∧
      (∀ before : Int, simulateRack position m results before cap w
        = simulateRack position m results rackScore cap w) ∧
      (simulateRack position m results rackScore cap w).2.2 = { w with pos := w.pos + 5 } := by
  obtain ⟨a, b, c, d, e, rfl⟩ := length_five results hlen
  refine ⟨?_, ?_, ?_, fun _ => rfl, ?_⟩
  · rw [simulateRack_eq]; rfl
  · rw [simulateRack_eq]
    simp [List.range, List.range.loop]
    ring
  · rw [simulateRack_eq]
    simp [pointValue_tableEntry]
    ring
  · rw [simulateRack_eq]

/-- Witness of C2: a non-money rack shot with capability 50 on draws that are
all 7. -/
theorem simulateRack_scoring_table_witness :
    ['a', 'b', 'c', 'd', 'e'].length = 5 ∧
    (simulateRack 2 false ['a', 'b', 'c', 'd', 'e'] 9 50 (constWorld 7)).1
        = (List.range 5).map (fun i => (tableEntry false i (hit 50 (constWorld 7) i)).1) ∧
      (simulateRack 2 false ['a', 'b', 'c', 'd', 'e'] 9 50 (constWorld 7)).2.1
        = 0 + ((List.range 5).map (fun i => (tableEntry false i (hit 50 (constWorld 7) i)).2)).sum ∧
      (simulateRack 2 false ['a', 'b', 'c', 'd', 'e'] 9 50 (constWorld 7)).2.1
        = ((simulateRack 2 false ['a', 'b', 'c', 'd', 'e'] 9 50 (constWorld 7)).1.map
            pointValue).sum ∧
      (∀ before : Int, simulateRack 2 false ['a', 'b', 'c', 'd', 'e'] before 50 (constWorld 7)
        = simulateRack 2 false ['a', 'b', 'c', 'd', 'e'] 9 50 (constWorld 7)) ∧
      (simulateRack 2 false ['a', 'b', 'c', 'd', 'e'] 9 50 (constWorld 7)).2.2
        = { constWorld 7 with pos := (constWorld 7).pos + 5 } :=
  ⟨by decide,
    simulateRack_scoring_table 2 false ['a', 'b', 'c', 'd', 'e'] (by decide) 9 50 (constWorld 7)⟩

/-- C3: the score `simulateRack` produces is between 0 and 6 on a rack that is
not the money-ball rack, and between 0 and 10 and even on the money-ball rack,
for every capability and every draws; for every capability of at least 1 some
draws give 6 and 10. -/
theorem simulateRack_score_bounds :
    (∀ (position : Int) (results : List Char) (rackScore cap : Int) (w : World),
      0 ≤ (simulateRack position false results rackScore cap w).2.1 ∧
      (simulateRack position false results rackScore cap w).2.1 ≤ 6) ∧
    (∀ (position : Int) (results : List Char) (rackScore cap : Int) (w : World),
      0 ≤ (simulateRack position true results rackScore cap w).2.1 ∧
      (simulateRack position true results rackScore cap w).2.1 ≤ 10 ∧
      2 ∣ (simulateRack position true results rackScore cap w).2.1) ∧
    (∀ (position : Int) (results : List Char) (rackScore cap : Int), 1 ≤ cap →
      ∃ w : World, (simulateRack position false results rackScore cap w).2.1 = 6 ∧
        (simulateRack position true results rackScore cap w).2.1 = 10) := by
  refine ⟨simulateRack_plain_bounds, simulateRack_money_bounds, ?_⟩
  · intro position results rackScore cap hcap
    refine ⟨constWorld 0, ?_, ?_⟩
    · rw [simulateRack_eq]
      have hh : ∀ k, hit cap (constWorld 0) k = true := by
        intro k
        simp [hit_eq, constWorld]
        omega
      simp [hh, tableEntry]
    · rw [simulateRack_eq]
      have hh : ∀ k, hit cap (constWorld 0) k = true := by
        intro k
        simp [hit_eq, constWorld]
        omega
      simp [hh, tableEntry]

/-- Witness of C3: with capability 50 some draws give 6 and 10. -/
theorem simulateRack_score_bounds_witness :
    (1 : Int) ≤ 50 ∧
    ∃ w : World, (simulateRack 1 false ['a', 'b', 'c', 'd', 'e'] 0 50 w).2.1 = 6 ∧
      (simulateRack 1 true ['a', 'b', 'c', 'd', 'e'] 0 50 w).2.1 = 10 :=
  ⟨by decide, simulateRack_score_bounds.2.2 1 ['a', 'b', 'c', 'd', 'e'] 0 50 (by decide)⟩

/-- C7: `shotSuccessful p` is a hit exactly when the draw modulo 100 is below
`p`, and it consumes one draw; for every `p` from 0 to 100 exactly `p` of the
residues 0..99 are hits; for every legal capability 1..99 the draw 0 hits and
the draw 99 misses. -/
theorem shotSuccessful_frequency :
    (∀ (p : Int) (w : World),
      ((shotSuccessful p w).1 = true ↔ ((w.draws w.pos % 100 : Nat) : Int) < p) ∧
      (shotSuccessful p w).2 = { w with pos := w.pos + 1 }) ∧
    (∀ p : Int, 0 ≤ p → p ≤ 100 →
      (((List.range 100).filter (fun r => (shotSuccessful p (constWorld r)).1)).length : Int) = p) ∧
    (∀ p : Int, 1 ≤ p → p ≤ 99 →
      (shotSuccessful p (constWorld 0)).1 = true ∧ (shotSuccessful p (constWorld 99)).1 = false) := by
  refine ⟨?_, ?_, ?_⟩
  · intro p w
    exact ⟨by simp [shotSuccessful_fst], rfl⟩
  · intro p h0 h100
    obtain ⟨n, rfl⟩ := Int.eq_ofNat_of_zero_le h0
    have hn : n ≤ 100 := by omega
    have hf : (List.range 100).filter (fun r => (shotSuccessful (n : Int) (constWorld r)).1)
        = (List.range 100).filter (fun r => decide (r < n)) := by
      apply List.filter_congr
      intro r hr
      have hr100 : r < 100 := List.mem_range.mp hr
      have hmod : r % 100 = r := Nat.mod_eq_of_lt hr100
      simp [shotSuccessful_fst, constWorld, hmod]
    rw [hf, filter_lt_length]
    simp [hn]
  · intro p h1 h99
    constructor
    · simp [shotSuccessful_fst, constWorld]; omega
    · simp [shotSuccessful_fst, constWorld]; omega

/-- Witness of C7: capability 37. -/
theorem shotSuccessful_frequency_witness :
    (0 : Int) ≤ 37 ∧ (37 : Int) ≤ 100 ∧
    (((List.range 100).filter (fun r => (shotSuccessful 37 (constWorld r)).1)).length : Int) = 37 ∧
    (1 : Int) ≤ 37 ∧ (37 : Int) ≤ 99 ∧
    (shotSuccessful 37 (constWorld 0)).1 = true ∧ (shotSuccessful 37 (constWorld 99)).1 = false :=
  ⟨by decide, by decide, shotSuccessful_frequency.2.1 37 (by decide) (by decide),
    by decide, by decide, shotSuccessful_frequency.2.2 37 (by decide) (by decide)⟩

theorem starryShots_append (a b : List Event) :
    starryShots (a ++ b) = starryShots a ++ starryShots b := by
  induction a with
  | nil => rfl
  | cons e a ih => cases e <;> simp [starryShots, ih]

/-- C4: `simulateStarryBall` changes the score it is given by exactly 0 or 3, by
3 exactly when the rack is a starry rack and the extra shot succeeds; on a rack
that is not starry it returns the score and the world unchanged (no draw, no
line). In `playRound` the starry flag holds exactly at positions 2 and 3, so a
round that completes takes exactly two starry shots (draws 10 and 16 of its 27). -/
theorem simulateStarryBall_adds_zero_or_three (b : Bool) (rackScore cap : Int) (w : World)
    (i m p : Int) :
    ((simulateStarryBall b rackScore cap w).1 = rackScore ∨
      (simulateStarryBall b rackScore cap w).1 = rackScore + 3) ∧
    ((simulateStarryBall b rackScore cap w).1 = rackScore + 3 ↔
      (b = true ∧ (shotSuccessful cap w).1 = true)) ∧
    simulateStarryBall false rackScore cap w = (rackScore, w) ∧
    (simulateStarryBall true rackScore cap w).2.pos = w.pos + 1 ∧
    (isStarryRack i = true ↔ (i = 2 ∨ i = 3)) ∧
    (playRound m p w).map (fun r => (starryShots r.2.out, r.2.pos)) =
      (chooseShootingCapability w).map (fun c =>
        (starryShots c.2.out ++ [hit c.1 c.2 10, hit c.1 c.2 16], c.2.pos + 27)) := by
  refine ⟨?_, ?_, ?_, ?_, ?_, ?_⟩
  · rw [simulateStarryBall_eq]
    cases b <;> cases hit cap w 0 <;> simp
  · rw [simulateStarryBall_eq, hit_zero]
    cases b <;> cases hit cap w 0 <;> simp
  · rw [simulateStarryBall_eq]; simp
  · rw [simulateStarryBall_eq]; simp
  · simp [isStarryRack]
  · rw [playRound_map]
    cases chooseShootingCapability w with
    | none => rfl
    | some c =>
        simp [starryShots_append, roundLines, rackLineAt, starryShots]

/-- C6: on an array of `N ≥ 1` scores `declareWinner` completes and the value it
reports as the highest score is at least every score and is the score of some
player; a player whose score is at least every score has exactly the reported
value, so tied leaders share it. Only the value is printed. -/
theorem declareWinner_reports_maximum (scores : List Int) (N : Int) (w : World)
    (hN : 1 ≤ N) (hlen : (scores.length : Int) = N) :
    ∃ h, declareWinner scores N w = some (w.print (Event.highestLine h)) ∧
      (∀ x ∈ scores, x ≤ h) ∧ h ∈ scores ∧
      (∀ s ∈ scores, (∀ x ∈ scores, x ≤ s) → s = h) := by
  exact declareWinner_max scores N w hN hlen

/-- Witness of C6: three players, two of them tied at the top. -/
theorem declareWinner_reports_maximum_witness :
    (1 : Int) ≤ 3 ∧ (([12, 20, 20] : List Int).length : Int) = 3 ∧
    ∃ h, declareWinner [12, 20, 20] 3 (constWorld 0)
        = some ((constWorld 0).print (Event.highestLine h)) ∧
      (∀ x ∈ ([12, 20, 20] : List Int), x ≤ h) ∧ h ∈ ([12, 20, 20] : List Int) ∧
      (∀ s ∈ ([12, 20, 20] : List Int), (∀ x ∈ ([12, 20, 20] : List Int), x ≤ s) → s = h) :=
  ⟨by decide, by decide,
    declareWinner_reports_maximum [12, 20, 20] 3 (constWorld 0) (by decide) (by decide)⟩

/-- C10: the total `playRound` stores is the sum of the five values
`simulateRack` wrote to `rackScore` (racks 1 to 5, shot from draws 0, 5, 11, 17
and 22 of the round), whatever array, previous score and output each call
received; a round consumes 27 draws; the total does not change when the two
starry draws (10 and 16) are replaced by any values; and it lies between 0 and
34. -/
theorem playRound_total_ignores_starry (m p : Int) (w : World) :
    (playRound m p w).map (fun r => (r.1, r.2.pos)) =
      (chooseShootingCapability w).map (fun c =>
        (0 + (rackAt m c.1 c.2 1 0).2.1 + (rackAt m c.1 c.2 2 5).2.1 + (rackAt m c.1 c.2 3 11).2.1
          + (rackAt m c.1 c.2 4 17).2.1 + (rackAt m c.1 c.2 5 22).2.1, c.2.pos + 27)) ∧
    (∀ (cap : Int) (v : World) (i k : Nat) (results : List Char) (rackScore : Int)
        (o : List Event),
      (simulateRack i (decide ((i : Int) = m)) results rackScore cap
        { v with pos := v.pos + k, out := o }).2.1 = (rackAt m cap v i k).2.1) ∧
    (∀ (cap : Int) (v : World) (x y : Nat),
      rackScoreSum m cap
        { v with draws := Function.update (Function.update v.draws (v.pos + 10) x) (v.pos + 16) y }
        = rackScoreSum m cap v) ∧
    (∀ (cap : Int) (v : World), 0 ≤ rackScoreSum m cap v ∧ rackScoreSum m cap v ≤ 34) ∧
    (∀ r, playRound m p w = some r → 0 ≤ r.1 ∧ r.1 ≤ 34) := by
  have hb : ∀ (cap : Int) (v : World), 0 ≤ rackScoreSum m cap v ∧ rackScoreSum m cap v ≤ 34 := by
    intro cap v
    have h1 := rackAt_bounds m cap v 1 0
    have h2 := rackAt_bounds m cap v 2 5
    have h3 := rackAt_bounds m cap v 3 11
    have h4 := rackAt_bounds m cap v 4 17
    have h5 := rackAt_bounds m cap v 5 22
    unfold rackScoreSum
    simp only [Nat.cast_ofNat, Nat.cast_one] at h1 h2 h3 h4 h5
    split_ifs at h1 h2 h3 h4 h5 <;> omega
  refine ⟨?_, ?_, ?_, hb, ?_⟩
  · rw [playRound_map]
    cases chooseShootingCapability w with
    | none => rfl
    | some c => rfl
  · intro cap v i k results rackScore o
    simp [rackAt, simulateRack_eq, hit_eq]
  · intro cap v x y
    simp [rackScoreSum, rackAt, simulateRack_eq, hit_eq, Function.update, Nat.add_assoc]
  · intro r hr
    rw [playRound_map] at hr
    cases hc : chooseShootingCapability w with
    | none => simp [hc] at hr
    | some c =>
        simp only [hc, Option.map_some', Option.some.injEq] at hr
        rw [← hr]
        exact hb c.1 c.2

/-- Witness of C10: a round with money-ball rack 3, capability 50 and draws all
7 totals 34 after 27 draws. -/
theorem playRound_total_ignores_starry_witness :
    ∃ r, playRound 3 1 (inputWorld [50] 7) = some r ∧ 0 ≤ r.1 ∧ r.1 ≤ 34 := by
  obtain ⟨r, hr⟩ := Option.isSome_iff_exists.mp
    (show (playRound 3 1 (inputWorld [50] 7)).isSome = true by decide)
  exact ⟨r, hr, (playRound_total_ignores_starry 3 1 (inputWorld [50] 7)).2.2.2.2 r hr⟩

/-- C1 (evaluation of the code at the failing input): with money-ball rack 1,
capability 99 and draws all 0 every shot is made; the five rack lines show
10, 6, 6, 6, 6 and both starry lines show a hit, yet the total is 34, not
34 + 3 + 3. -/
theorem playRound_drops_starry_points :
    (playRound 1 1 (inputWorld [99] 0)).map
        (fun r => (r.1, rackScores r.2.out, starryShots r.2.out))
      = some (34, [10, 6, 6, 6, 6], [true, true]) ∧
    (34 : Int) ≠ (10 + 6 + 6 + 6 + 6) + 3 + 3 := by
  decide

end GoHooping
